import Mathlib

/-!
Shallow embedding of the supervisory control plane of the AudioGridder
server (`src/Server/Source/Server.cpp`): crash-safe plugin discovery
(config loading, dead-man-file drain, exclusion policy, scan loop with
isolated probes) and the connection-accepting run loop.

JUCE `String` is modelled by `String`, `std::set<String>` and the
catalog blacklist by `Finset String`, `KnownPluginList` by a list of
descriptors plus a blacklist, and the filesystem visible to the scanner
by an explicit `Disk` record threaded through the functions.  Child
probe processes are modelled by a deterministic oracle
`probe : String → String → ProbeRes` describing what the spawned
`-scan` invocation does to the disk.
-/

namespace Server

/-- JUCE `String::containsIgnoreCase`: case-insensitive substring test.
`hasSubList sub l` is true iff `sub` occurs contiguously inside `l`. -/
def hasSubList (sub : List Char) : List Char → Bool
  | [] => List.isPrefixOf sub []
  | c :: rest => List.isPrefixOf sub (c :: rest) || hasSubList sub rest

/-- The characters of a string, lower-cased. -/
def lowerChars (s : String) : List Char :=
  s.data.map Char.toLower

def containsIgnoreCase (s sub : String) : Bool :=
  hasSubList (lowerChars sub) (lowerChars s)

/-- One entry of the JUCE `KnownPluginList`: a plugin description.  Only
the fields the server code reads are modelled. -/
structure PluginDesc where
  name : String
  descriptiveName : String
  fileOrId : String
  deriving DecidableEq, Repr

/-- JUCE `KnownPluginList`: the known plugin types plus the blacklist of
files that crashed or failed scanning. -/
structure KnownPluginList where
  types : List PluginDesc
  blacklist : Finset String
  deriving DecidableEq

/-- JUCE `KnownPluginList::getTypeForFile`: first type whose file/identifier
matches. -/
def getTypeForFile (fileOrId : String) (pl : KnownPluginList) : Option PluginDesc :=
  pl.types.find? (fun p => p.fileOrId == fileOrId)

/-- JUCE `KnownPluginList::addType`: replaces an existing entry with the same
file/identifier in place, otherwise appends. -/
def addType (p : PluginDesc) (ts : List PluginDesc) : List PluginDesc :=
  if ts.any (fun q => q.fileOrId == p.fileOrId) then
    ts.map (fun q => if q.fileOrId == p.fileOrId then p else q)
  else
    ts ++ [p]

/-- JUCE `KnownPluginList::addToBlacklist` (adds if not already there). -/
def addToBlacklist (f : String) (pl : KnownPluginList) : KnownPluginList :=
  { pl with blacklist := insert f pl.blacklist }

/-- Stable case-insensitive alphabetical comparison used by
`KnownPluginList::sort (sortAlphabetically, true)`. -/
def pluginLe (a b : PluginDesc) : Bool :=
  a.name.toLower ≤ b.name.toLower

/-- In-memory state of the `Server` object: identity/config fields and
the plugin list (`m_pluginlist`) and exclusion set (`m_pluginexclude`). -/
structure ServerState where
  id : Int
  host : String
  port : Int
  enableAU : Bool
  enableVST : Bool
  enableVST2 : Bool
  screenJpgQuality : Float
  screenDiffDetection : Bool
  pluginexclude : Finset String
  pluginlist : KnownPluginList

/-- Parsed content of the server config file (`SERVER_CONFIG_FILE`);
every field is optional, missing fields keep the in-memory defaults. -/
structure ConfigJson where
  idField : Option Int := none
  au : Option Bool := none
  vst : Option Bool := none
  vst2 : Option Bool := none
  screenQuality : Option Float := none
  screenDiffDetection : Option Bool := none
  excludePlugins : Option (List String) := none

/-- File-system side effects performed by `Server::loadConfig`. -/
structure LoadEffects where
  deadmanDeleted : Bool
  configSaved : Bool
  catalogSaved : Bool
  deriving DecidableEq, Repr

/-- Apply the optional config-file fields, as the first half of
`Server::loadConfig` does. -/
def applyConfig (j : ConfigJson) (s : ServerState) : ServerState :=
  let s := match j.idField with | some v => { s with id := v } | none => s
  let s := match j.au with | some v => { s with enableAU := v } | none => s
  let s := match j.vst with | some v => { s with enableVST := v } | none => s
  let s := match j.vst2 with | some v => { s with enableVST2 := v } | none => s
  let s := match j.screenQuality with | some v => { s with screenJpgQuality := v } | none => s
  let s := match j.screenDiffDetection with | some v => { s with screenDiffDetection := v } | none => s
  match j.excludePlugins with
  | some l => { s with pluginexclude := l.foldl (fun e n => insert n e) s.pluginexclude }
  | none => s

/-- Model of `Server::loadConfig`.  `cfg = none` means the config file does not
exist; `deadman = none` means the dead-man (sentinel) file does not
exist, `deadman = some lines` gives its lines.  When the sentinel
exists, every line is added to the catalog blacklist, the sentinel file
is deleted, and `saveConfig` (only) is invoked. -/
def loadConfig (cfg : Option ConfigJson) (deadman : Option (List String))
    (s : ServerState) : ServerState × LoadEffects :=
  let s1 := match cfg with | some j => applyConfig j s | none => s
  match deadman with
  | none => (s1, { deadmanDeleted := false, configSaved := false, catalogSaved := false })
  | some lines =>
      ({ s1 with pluginlist := lines.foldl (fun pl line => addToBlacklist line pl) s1.pluginlist },
       { deadmanDeleted := true, configSaved := true, catalogSaved := false })

/-- Model of `Server::shouldExclude(name, include)`: self-exclusion of the host
application first, then the include-list as an allow-list, otherwise the
persisted exclusion set. -/
def shouldExcludeWith (exclude : Finset String) (name : String)
    (incl : List String) : Bool :=
  if containsIgnoreCase name "AGridder" || containsIgnoreCase name "AudioGridder" then
    true
  else if incl.length > 0 then
    if incl.any (fun i => name == i) then false else true
  else
    decide (name ∈ exclude)

/-- Model of `Server::shouldExclude(name)`: the one-argument overload calls the
two-argument one with an empty list. -/
def shouldExcludeNoList (exclude : Finset String) (name : String) : Bool :=
  shouldExcludeWith exclude name []

/-- A JUCE `AudioPluginFormat` driver as the scan loop uses it:
`getName`, `searchPathsForPlugins` (the enumerated files/identifiers),
`getNameOfPluginFromIdentifier` and `pluginNeedsRescanning`. -/
structure FormatDriver where
  name : String
  installed : List String
  pluginName : String → String
  needsRescan : PluginDesc → Bool

/-- Result of one isolated child probe of an identifier: the child either
produces a description (exit 0), reports a failed file which it
blacklists (non-zero exit), or hangs/crashes before finishing. -/
inductive ProbeRes where
  | ok (desc : PluginDesc)
  | bad
  | hang
  deriving DecidableEq

/-- Probe oracle: what the `-scan` child does for a given
identifier/format pair.  A function, hence deterministic. -/
def ProbeOracle := String → String → ProbeRes

/-- The filesystem as the scanner sees it: the known-plugins file and
the dead-man (sentinel) file content. -/
structure Disk where
  catalog : KnownPluginList
  deadman : List String
  deriving DecidableEq

/-- Effect of the child-process `Server::scanPlugin(id, fmt)` on the disk: it
loads the catalog file, writes `id` to the dead-man file, scans, and
on a clean exit saves the catalog (adding the description on success,
blacklisting on failure) and truncates the dead-man file; if it hangs
or crashes the dead-man entry survives and the catalog is unwritten. -/
def scanPluginChild (probe : ProbeOracle) (fileOrId fmtName : String)
    (d : Disk) : Disk :=
  match probe fileOrId fmtName with
  | .ok desc =>
      { catalog := { d.catalog with
                     types := addType { desc with fileOrId := fileOrId } d.catalog.types },
        deadman := [] }
  | .bad =>
      { catalog := addToBlacklist fileOrId d.catalog, deadman := [] }
  | .hang =>
      { d with deadman := [fileOrId] }

/-- The probe decision of `Server::scanForPlugins` for one discovered
plugin: probe unless a description already exists and needs no rescan,
or the identifier is blacklisted, or the name is excluded.  `plist0` is
`m_pluginlist` as loaded at the start of the pass, `excl` is
`m_pluginexclude`. -/
def scanDecision (plist0 : KnownPluginList) (excl : Finset String)
    (incl : List String) (fmt : FormatDriver) (fileOrId : String) : Bool :=
  (match getTypeForFile fileOrId plist0 with
   | none => true
   | some p => fmt.needsRescan p) &&
  !(decide (fileOrId ∈ plist0.blacklist)) &&
  !(shouldExcludeWith excl (fmt.pluginName fileOrId) incl)

/-- The flattened enumeration order of `scanForPlugins`: all identifiers
of the first enabled format, then the second, and so on. -/
def itemsOf (fmts : List FormatDriver) : List (FormatDriver × String) :=
  fmts.flatMap (fun f => f.installed.map (fun id => (f, id)))

/-- Disk evolution over the scan loop: each discovered plugin that
passes `scanDecision` is probed by an isolated child. -/
def scanLoop (probe : ProbeOracle) (plist0 : KnownPluginList)
    (excl : Finset String) (incl : List String)
    (items : List (FormatDriver × String)) (d : Disk) : Disk :=
  items.foldl
    (fun d it =>
      if scanDecision plist0 excl incl it.1 it.2 then
        scanPluginChild probe it.2 it.1.name d
      else d)
    d

/-- The `neverSeenList` after the loop: the snapshot of the exclusion
set minus every display name observed during enumeration. -/
def neverSeenAfter (items : List (FormatDriver × String))
    (excl : Finset String) : Finset String :=
  items.foldl (fun ns it => ns.erase (it.1.pluginName it.2)) excl

/-- The probes actually launched during the pass, as
(identifier, format-name) pairs in launch order. -/
def probeLog (plist0 : KnownPluginList) (excl : Finset String)
    (incl : List String) (items : List (FormatDriver × String)) :
    List (String × String) :=
  items.filterMap
    (fun it =>
      if scanDecision plist0 excl incl it.1 it.2 then some (it.2, it.1.name)
      else none)

/-- Model of `Server::scanForPlugins(include)`: build the enabled-format drivers,
snapshot the exclusion set, reload the catalog, walk all discovered
plugins probing as decided, reload the catalog again, sort it
alphabetically (case-insensitive, stable), and prune never-seen names
from the exclusion set.  Returns the new server state, the new disk and
the launched-probe log. -/
def scanForPlugins (probe : ProbeOracle) (fmts : List FormatDriver)
    (incl : List String) (s : ServerState) (d : Disk) :
    ServerState × Disk × List (String × String) :=
  let items := itemsOf fmts
  let plist0 := d.catalog
  let d1 := scanLoop probe plist0 s.pluginexclude incl items d
  let ns1 := neverSeenAfter items s.pluginexclude
  ({ s with
     pluginlist := { types := d1.catalog.types.mergeSort pluginLe,
                     blacklist := d1.catalog.blacklist },
     pluginexclude := s.pluginexclude \ ns1 },
   d1,
   probeLog plist0 s.pluginexclude incl items)

/-- Outcome of the child process from the parent point of view in
`Server::scanNextPlugin`: the process failed to start, was still running
when the 30-second wait elapsed, or exited with a code. -/
inductive ProcOutcome where
  | startFailed
  | stillRunningAfterWait
  | exited (code : Int)
  deriving DecidableEq

/-- The wait passed to `waitForProcessToFinish` in `scanNextPlugin`. -/
def SCAN_TIMEOUT_MS : Nat := 30000

/-- Parent-side actions of `Server::scanNextPlugin`. -/
structure ProbeParentActions where
  waitedMs : Option Nat
  killed : Bool
  loggedError : Bool
  deriving DecidableEq, Repr

/-- Model of `Server::scanNextPlugin(id, fmt)`, parent side: start the child,
wait up to `SCAN_TIMEOUT_MS`, kill it if still running, log a failure
exit code.  The parent state is returned untouched: the parent never
mutates the catalog, blacklist or exclusion set here. -/
def scanNextPlugin (outcome : ProcOutcome) (s : ServerState) :
    ServerState × ProbeParentActions :=
  match outcome with
  | .startFailed => (s, { waitedMs := none, killed := false, loggedError := true })
  | .stillRunningAfterWait =>
      (s, { waitedMs := some SCAN_TIMEOUT_MS, killed := true, loggedError := true })
  | .exited code =>
      (s, { waitedMs := some SCAN_TIMEOUT_MS, killed := false,
            loggedError := decide (code ≠ 0) })

/-- Observable log of `Server::run`. -/
structure RunLog where
  listenPort : Int
  enteredAcceptLoop : Bool
  workers : List Nat
  deriving DecidableEq, Repr

/-- Model of `Server::run`: scan for plugins (no include-list), save config and
plugin list, create the listener on `m_port + m_id`; on success loop
accepting connections (clients are modelled by numeric handles, `none`
being a null `waitForNextConnection` result), spawning one worker per
accepted client; on bind failure only log.  Returns the state after the
scan, the disk after the saves, and the run log. -/
def serverRun (probe : ProbeOracle) (fmts : List FormatDriver)
    (bindOk : Bool) (conns : List (Option Nat)) (s : ServerState)
    (d : Disk) : ServerState × Disk × RunLog :=
  let r := scanForPlugins probe fmts [] s d
  let s1 := r.1
  let d2 := { r.2.1 with catalog := s1.pluginlist }
  if bindOk then
    (s1, d2, { listenPort := s.port + s.id, enteredAcceptLoop := true,
               workers := conns.filterMap id })
  else
    (s1, d2, { listenPort := s.port + s.id, enteredAcceptLoop := false,
               workers := [] })

/-- The sequence of calls `Server::addPlugins` makes to its callback for
a given name list against the post-scan plugin list: walking the names
in order, the first one matching no descriptive name yields a single
`false` call and an early return; if all match, a single `true` call. -/
def callbackCalls (names : List String) (pl : KnownPluginList) : List Bool :=
  match names with
  | [] => [true]
  | n :: rest =>
      if pl.types.any (fun p => n == p.descriptiveName) then callbackCalls rest pl
      else [false]

/-- Body of the detached thread of `Server::addPlugins(names, fn)`:
scan with `names` as the include-list, save config and plugin list, then
if a callback was supplied report whether every name was found.  Returns
the new state, disk, and the list of calls made to the callback. -/
def addPlugins (probe : ProbeOracle) (fmts : List FormatDriver)
    (names : List String) (hasCallback : Bool) (s : ServerState)
    (d : Disk) : ServerState × Disk × List Bool :=
  let r := scanForPlugins probe fmts names s d
  let s1 := r.1
  let d2 := { r.2.1 with catalog := s1.pluginlist }
  (s1, d2, if hasCallback then callbackCalls names s1.pluginlist else [])

/-- A concrete freshly-constructed server state for concrete runs. -/
def exState : ServerState :=
  { id := 0, host := "", port := 55056,
    enableAU := false, enableVST := true, enableVST2 := false,
    screenJpgQuality := 0.9, screenDiffDetection := false,
    pluginexclude := ∅,
    pluginlist := { types := [], blacklist := ∅ } }

/-- The concrete state with one operator-excluded plugin name. -/
def exStateExcl : ServerState :=
  { exState with pluginexclude := {"OldPlugin"} }

/-- A concrete empty disk. -/
def exDisk : Disk := { catalog := { types := [], blacklist := ∅ }, deadman := [] }

/-- A concrete description used by the concrete probe oracle. -/
def exDesc : PluginDesc :=
  { name := "One", descriptiveName := "One", fileOrId := "/a/One.vst3" }

/-- A concrete probe oracle: every probe succeeds with `exDesc`
(renamed to the probed identifier). -/
def exProbe : ProbeOracle := fun _ _ => .ok exDesc

/-- A concrete VST3 format driver exposing one installed plugin. -/
def exFmt : FormatDriver :=
  { name := "VST3", installed := ["/a/One.vst3"],
    pluginName := fun _ => "One", needsRescan := fun _ => false }

end Server

/-! ## Helper lemmas -/

lemma mem_blacklist_foldl (lines : List String) (pl : Server.KnownPluginList) (X : String) :
    X ∈ (lines.foldl (fun pl line => Server.addToBlacklist line pl) pl).blacklist ↔
      X ∈ pl.blacklist ∨ X ∈ lines := by
  induction lines generalizing pl with
  | nil => simp
  | cons l rest ih =>
      rw [List.foldl_cons, ih]
      simp only [Server.addToBlacklist, Finset.mem_insert, List.mem_cons]
      tauto

lemma callbackCalls_spec (names : List String) (pl : Server.KnownPluginList) :
    (Server.callbackCalls names pl).length = 1 ∧
    (Server.callbackCalls names pl = [true] ↔
      ∀ n ∈ names, ∃ p ∈ pl.types, n = p.descriptiveName) := by
  induction names with
  | nil => simp [Server.callbackCalls]
  | cons n rest ih =>
      by_cases h : pl.types.any (fun p => n == p.descriptiveName) = true
      · have hex : ∃ p ∈ pl.types, n = p.descriptiveName := by
          simpa [List.any_eq_true] using h
        have hstep : Server.callbackCalls (n :: rest) pl = Server.callbackCalls rest pl := by
          simp [Server.callbackCalls, h]
        refine ⟨hstep ▸ ih.1, ?_⟩
        rw [hstep, ih.2]
        simp [List.forall_mem_cons, hex]
      · have hnex : ¬ ∃ p ∈ pl.types, n = p.descriptiveName := by
          simpa [List.any_eq_true] using h
        have hstep : Server.callbackCalls (n :: rest) pl = [false] := by
          simp [Server.callbackCalls, h]
        refine ⟨by rw [hstep]; rfl, ?_⟩
        rw [hstep]
        refine ⟨fun hco => absurd hco (by simp), fun hall => ?_⟩
        exact absurd (hall n (by simp)) hnex

lemma scanDecision_iff (plist0 : Server.KnownPluginList) (excl : Finset String)
    (incl : List String) (fmt : Server.FormatDriver) (fileOrId : String) :
    Server.scanDecision plist0 excl incl fmt fileOrId = true ↔
      (Server.getTypeForFile fileOrId plist0 = none ∨
       ∃ p, Server.getTypeForFile fileOrId plist0 = some p ∧ fmt.needsRescan p = true) ∧
      fileOrId ∉ plist0.blacklist ∧
      Server.shouldExcludeWith excl (fmt.pluginName fileOrId) incl = false := by
  cases h : Server.getTypeForFile fileOrId plist0 with
  | none => simp [Server.scanDecision, h]
  | some p => simp [Server.scanDecision, h, and_assoc]

lemma mem_probeLog (plist0 : Server.KnownPluginList) (excl : Finset String)
    (incl : List String) (items : List (Server.FormatDriver × String))
    (id fname : String) :
    (id, fname) ∈ Server.probeLog plist0 excl incl items ↔
      ∃ fmt, (fmt, id) ∈ items ∧ fmt.name = fname ∧
        Server.scanDecision plist0 excl incl fmt id = true := by
  unfold Server.probeLog
  rw [List.mem_filterMap]
  constructor
  · rintro ⟨⟨fmt, fid⟩, hmem, hf⟩
    by_cases hdec : Server.scanDecision plist0 excl incl fmt fid = true
    · rw [if_pos hdec] at hf
      obtain ⟨rfl, rfl⟩ := Prod.mk.injEq .. ▸ Option.some.inj hf
      exact ⟨fmt, hmem, rfl, hdec⟩
    · rw [if_neg hdec] at hf
      exact absurd hf (by simp)
  · rintro ⟨fmt, hmem, hname, hdec⟩
    refine ⟨(fmt, id), hmem, ?_⟩
    simp [hdec, hname]

lemma neverSeenAfter_cons (it : Server.FormatDriver × String)
    (rest : List (Server.FormatDriver × String)) (excl : Finset String) :
    Server.neverSeenAfter (it :: rest) excl =
      Server.neverSeenAfter rest (excl.erase (it.1.pluginName it.2)) := rfl

lemma mem_neverSeenAfter (items : List (Server.FormatDriver × String))
    (excl : Finset String) (x : String) :
    x ∈ Server.neverSeenAfter items excl ↔
      x ∈ excl ∧ ∀ it ∈ items, it.1.pluginName it.2 ≠ x := by
  induction items generalizing excl with
  | nil => simp [Server.neverSeenAfter]
  | cons it rest ih =>
      rw [neverSeenAfter_cons, ih]
      simp only [Finset.mem_erase, List.forall_mem_cons]
      tauto

/-! ## Claim theorems -/

/-- C1: every identifier X present in the sentinel (dead-man) file at
server startup is, after the drain performed by `loadConfig`, a member
of the catalog blacklist, and the sentinel file has been deleted; this
holds for every such X simultaneously. -/
theorem C1_sentinel_recovery (cfg : Option Server.ConfigJson) (lines : List String)
    (s : Server.ServerState) (X : String) (hX : X ∈ lines) :
    X ∈ ((Server.loadConfig cfg (some lines) s).1).pluginlist.blacklist ∧
    ((Server.loadConfig cfg (some lines) s).2).deadmanDeleted = true := by
  refine ⟨?_, rfl⟩
  simp only [Server.loadConfig]
  rw [mem_blacklist_foldl]
  exact Or.inr hX

theorem C1_witness :
    "BadPlugin" ∈ (["BadPlugin"] : List String) ∧
    ("BadPlugin" ∈ ((Server.loadConfig none (some ["BadPlugin"]) Server.exState).1).pluginlist.blacklist ∧
     ((Server.loadConfig none (some ["BadPlugin"]) Server.exState).2).deadmanDeleted = true) :=
  ⟨by decide, C1_sentinel_recovery none ["BadPlugin"] Server.exState "BadPlugin" (by decide)⟩

/-- C2 counterexample: with a non-empty sentinel, the drain in
`loadConfig` performs a config save but does NOT perform a catalog
(known-plugin-list) save, contradicting the claim that both saves are
triggered before returning. -/
theorem C2_counterexample :
    ((Server.loadConfig none (some ["BadPlugin"]) Server.exState).2).catalogSaved = false ∧
    ((Server.loadConfig none (some ["BadPlugin"]) Server.exState).2).configSaved = true :=
  ⟨rfl, rfl⟩

/-- C2 (amended): whenever the startup drain finds an existing sentinel
file, it triggers a config save (`saveConfig`) before returning, but it
does not trigger a catalog save (`saveKnownPluginList`): the new
blacklist entries are not persisted to the catalog file by the drain. -/
theorem C2_drain_saves_config_only (cfg : Option Server.ConfigJson)
    (lines : List String) (s : Server.ServerState) :
    ((Server.loadConfig cfg (some lines) s).2).configSaved = true ∧
    ((Server.loadConfig cfg (some lines) s).2).catalogSaved = false :=
  ⟨rfl, rfl⟩

/-- C3 counterexample: the name "AudioGridder" is in the include-list
`["AudioGridder"]`, yet `shouldExclude` returns true (the
self-exclusion check precedes the include-list check), contradicting
the claim that the result is false iff the name is in the list. -/
theorem C3_counterexample :
    Server.shouldExcludeWith ∅ "AudioGridder" ["AudioGridder"] = true ∧
    "AudioGridder" ∈ (["AudioGridder"] : List String) :=
  ⟨by decide, by decide⟩

/-- C3 (amended): for every name N that does not contain the host
application identifiers ("AGridder"/"AudioGridder") case-insensitively
and every non-empty include-list L, `shouldExclude(N, L)` returns false
iff N exactly matches (case-sensitive) some entry of L, regardless of
the persisted exclusion set. -/
theorem C3_exclusion_precedence (excl : Finset String) (N : String) (L : List String)
    (hL : L ≠ [])
    (h1 : Server.containsIgnoreCase N "AGridder" = false)
    (h2 : Server.containsIgnoreCase N "AudioGridder" = false) :
    (Server.shouldExcludeWith excl N L = false ↔ N ∈ L) := by
  have hlen : 0 < L.length := List.length_pos.mpr hL
  simp [Server.shouldExcludeWith, h1, h2, hlen, List.any_eq_true]

theorem C3_witness :
    (["Reverb"] : List String) ≠ [] ∧
    Server.containsIgnoreCase "Reverb" "AGridder" = false ∧
    Server.containsIgnoreCase "Reverb" "AudioGridder" = false ∧
    (Server.shouldExcludeWith ∅ "Reverb" ["Reverb"] = false ↔
      "Reverb" ∈ (["Reverb"] : List String)) :=
  ⟨by decide, by decide, by decide,
   C3_exclusion_precedence ∅ "Reverb" ["Reverb"] (by decide) (by decide) (by decide)⟩

/-- C4: any name containing one of the host application product
identifiers as a case-insensitive substring is excluded under every
include-list (even one containing the name itself), and also by the
no-include-list overload. -/
theorem C4_self_exclusion (excl : Finset String) (N : String) (L : List String)
    (h : Server.containsIgnoreCase N "AGridder" = true ∨
         Server.containsIgnoreCase N "AudioGridder" = true) :
    Server.shouldExcludeWith excl N L = true ∧
    Server.shouldExcludeNoList excl N = true := by
  have hb : (Server.containsIgnoreCase N "AGridder" ||
      Server.containsIgnoreCase N "AudioGridder") = true := by
    rcases h with h | h <;> simp [h]
  constructor <;> simp [Server.shouldExcludeWith, Server.shouldExcludeNoList, hb]

theorem C4_witness :
    (Server.containsIgnoreCase "My AudioGridder" "AGridder" = true ∨
     Server.containsIgnoreCase "My AudioGridder" "AudioGridder" = true) ∧
    (Server.shouldExcludeWith ∅ "My AudioGridder" ["My AudioGridder"] = true ∧
     Server.shouldExcludeNoList ∅ "My AudioGridder" = true) :=
  ⟨Or.inr (by decide),
   C4_self_exclusion ∅ "My AudioGridder" ["My AudioGridder"] (Or.inr (by decide))⟩

/-- C7: the parent side of an isolated probe waits at most the fixed
30000 ms timeout, kills the child exactly when it is still running
after that wait, and in every outcome (start failure, timeout,
any exit code) leaves the parent in-memory state — catalog, blacklist and
exclusion set included — unchanged. -/
theorem C7_probe_parent_frame (o : Server.ProcOutcome) (s : Server.ServerState) :
    (Server.scanNextPlugin o s).1 = s ∧
    ((Server.scanNextPlugin o s).2.waitedMs = none ∨
     (Server.scanNextPlugin o s).2.waitedMs = some Server.SCAN_TIMEOUT_MS) ∧
    ((Server.scanNextPlugin o s).2.killed = true ↔
      o = Server.ProcOutcome.stillRunningAfterWait) ∧
    Server.SCAN_TIMEOUT_MS = 30000 := by
  cases o <;> simp [Server.scanNextPlugin, Server.SCAN_TIMEOUT_MS]

/-- C9: if creating the listener on `m_port + m_id` fails, `run` never
enters the accept loop and creates no workers. -/
theorem C9_bind_failure_no_workers (probe : Server.ProbeOracle)
    (fmts : List Server.FormatDriver) (conns : List (Option Nat))
    (s : Server.ServerState) (d : Server.Disk) :
    ((Server.serverRun probe fmts false conns s d).2.2).workers = [] ∧
    ((Server.serverRun probe fmts false conns s d).2.2).enteredAcceptLoop = false ∧
    ((Server.serverRun probe fmts false conns s d).2.2).listenPort = s.port + s.id :=
  ⟨rfl, rfl, rfl⟩

/-- C10: with a non-null callback, `addPlugins` invokes the callback
exactly once after its scan, with argument true iff every requested
name exactly matches the descriptive name of some descriptor in the
catalog at that moment. -/
theorem C10_addPlugins_callback_once (probe : Server.ProbeOracle)
    (fmts : List Server.FormatDriver) (names : List String)
    (s : Server.ServerState) (d : Server.Disk) :
    ((Server.addPlugins probe fmts names true s d).2.2).length = 1 ∧
    ((Server.addPlugins probe fmts names true s d).2.2 = [true] ↔
      ∀ n ∈ names,
        ∃ p ∈ ((Server.addPlugins probe fmts names true s d).1).pluginlist.types,
          n = p.descriptiveName) :=
  callbackCalls_spec names ((Server.scanForPlugins probe fmts names s d).1).pluginlist

/-- C5: during a scan pass, an isolated probe is launched for identifier
`id` under format name `fname` iff some enabled driver enumerates `id`,
and (no valid descriptor exists for `id` in the catalog as loaded at the
start of the pass, or the driver reports it needs rescanning), and `id`
is not blacklisted, and its display name is not excluded by the
`shouldExclude` policy for the supplied include-list. -/
theorem C5_probe_condition (probe : Server.ProbeOracle)
    (fmts : List Server.FormatDriver) (incl : List String)
    (s : Server.ServerState) (d : Server.Disk) (id fname : String) :
    (id, fname) ∈ (Server.scanForPlugins probe fmts incl s d).2.2 ↔
      ∃ fmt, (fmt, id) ∈ Server.itemsOf fmts ∧ fmt.name = fname ∧
        ((Server.getTypeForFile id d.catalog = none ∨
          ∃ p, Server.getTypeForFile id d.catalog = some p ∧ fmt.needsRescan p = true) ∧
         id ∉ d.catalog.blacklist ∧
         Server.shouldExcludeWith s.pluginexclude (fmt.pluginName id) incl = false) := by
  have h0 : (Server.scanForPlugins probe fmts incl s d).2.2 =
      Server.probeLog d.catalog s.pluginexclude incl (Server.itemsOf fmts) := rfl
  rw [h0, mem_probeLog]
  exact exists_congr fun fmt =>
    and_congr_right fun _ => and_congr_right fun _ =>
      scanDecision_iff d.catalog s.pluginexclude incl fmt id

/-- C6: after a full `scanForPlugins` pass, every name that was in the
exclusion set at the start and was not observed among the enumerated
plugins of any enabled format is absent from the exclusion set, and
every starting exclusion-set name that was observed remains in it. -/
theorem C6_stale_exclusion_pruning (probe : Server.ProbeOracle)
    (fmts : List Server.FormatDriver) (incl : List String)
    (s : Server.ServerState) (d : Server.Disk) (N : String)
    (hN : N ∈ s.pluginexclude) :
    (N ∉ (Server.itemsOf fmts).map (fun it => it.1.pluginName it.2) →
      N ∉ ((Server.scanForPlugins probe fmts incl s d).1).pluginexclude) ∧
    (N ∈ (Server.itemsOf fmts).map (fun it => it.1.pluginName it.2) →
      N ∈ ((Server.scanForPlugins probe fmts incl s d).1).pluginexclude) := by
  have hexcl : ((Server.scanForPlugins probe fmts incl s d).1).pluginexclude =
      s.pluginexclude \ Server.neverSeenAfter (Server.itemsOf fmts) s.pluginexclude := rfl
  constructor
  · intro hobs hmem
    rw [hexcl, Finset.mem_sdiff] at hmem
    refine hmem.2 ?_
    rw [mem_neverSeenAfter]
    refine ⟨hN, fun it hit hname => hobs ?_⟩
    exact List.mem_map.mpr ⟨it, hit, hname⟩
  · intro hobs
    rw [hexcl, Finset.mem_sdiff]
    refine ⟨hN, ?_⟩
    rw [mem_neverSeenAfter]
    rintro ⟨-, hall⟩
    obtain ⟨it, hit, hname⟩ := List.mem_map.mp hobs
    exact hall it hit hname

theorem C6_witness :
    "OldPlugin" ∈ Server.exStateExcl.pluginexclude ∧
    (("OldPlugin" ∉ (Server.itemsOf [Server.exFmt]).map (fun it => it.1.pluginName it.2) →
       "OldPlugin" ∉
         ((Server.scanForPlugins Server.exProbe [Server.exFmt] [] Server.exStateExcl
             Server.exDisk).1).pluginexclude) ∧
     ("OldPlugin" ∈ (Server.itemsOf [Server.exFmt]).map (fun it => it.1.pluginName it.2) →
       "OldPlugin" ∈
         ((Server.scanForPlugins Server.exProbe [Server.exFmt] [] Server.exStateExcl
             Server.exDisk).1).pluginexclude)) :=
  ⟨by decide,
   C6_stale_exclusion_pruning Server.exProbe [Server.exFmt] [] Server.exStateExcl
     Server.exDisk "OldPlugin" (by decide)⟩

/-! ## Lemmas for scan idempotence (C8) -/

lemma beqFid_true {q : Server.PluginDesc} {id : String} (h : q.fileOrId = id) :
    (q.fileOrId == id) = true := by
  rw [beq_iff_eq]; exact h

lemma beqFid_false {q : Server.PluginDesc} {id : String} (h : q.fileOrId ≠ id) :
    (q.fileOrId == id) = false := by
  rw [beq_eq_false_iff_ne]; exact h

lemma find?_replace_ne (p : Server.PluginDesc) (ts : List Server.PluginDesc)
    (id : String) (hp : p.fileOrId ≠ id) :
    (ts.map (fun q => if q.fileOrId == p.fileOrId then p else q)).find?
        (fun q => q.fileOrId == id) =
      ts.find? (fun q => q.fileOrId == id) := by
  induction ts with
  | nil => rfl
  | cons q rest ih =>
      simp only [List.map_cons]
      by_cases hq : (q.fileOrId == p.fileOrId) = true
      · rw [if_pos hq]
        rw [beq_iff_eq] at hq
        simp only [List.find?_cons, beqFid_false hp, beqFid_false (hq ▸ hp)]
        exact ih
      · rw [if_neg hq]
        by_cases hqid : (q.fileOrId == id) = true
        · simp only [List.find?_cons, hqid]
        · rw [Bool.not_eq_true] at hqid
          simp only [List.find?_cons, hqid]
          exact ih

lemma find?_append_single_ne (p : Server.PluginDesc) (ts : List Server.PluginDesc)
    (id : String) (hp : p.fileOrId ≠ id) :
    (ts ++ [p]).find? (fun q => q.fileOrId == id) =
      ts.find? (fun q => q.fileOrId == id) := by
  induction ts with
  | nil =>
      simp only [List.nil_append, List.find?_cons, beqFid_false hp]
  | cons q rest ih =>
      by_cases hq : (q.fileOrId == id) = true
      · simp only [List.cons_append, List.find?_cons, hq]
      · rw [Bool.not_eq_true] at hq
        simp only [List.cons_append, List.find?_cons, hq]
        exact ih

lemma find?_addType_ne (p : Server.PluginDesc) (ts : List Server.PluginDesc)
    (id : String) (hp : p.fileOrId ≠ id) :
    (Server.addType p ts).find? (fun q => q.fileOrId == id) =
      ts.find? (fun q => q.fileOrId == id) := by
  unfold Server.addType
  by_cases hany : ts.any (fun q => q.fileOrId == p.fileOrId) = true
  · rw [if_pos hany]
    exact find?_replace_ne p ts id hp
  · rw [if_neg hany]
    exact find?_append_single_ne p ts id hp

lemma find?_replace_self (p : Server.PluginDesc) (ts : List Server.PluginDesc)
    (id : String) (hp : p.fileOrId = id)
    (hany : ts.any (fun q => q.fileOrId == p.fileOrId) = true) :
    (ts.map (fun q => if q.fileOrId == p.fileOrId then p else q)).find?
        (fun q => q.fileOrId == id) = some p := by
  induction ts with
  | nil => simp at hany
  | cons q rest ih =>
      simp only [List.map_cons]
      by_cases hq : (q.fileOrId == p.fileOrId) = true
      · rw [if_pos hq]
        simp only [List.find?_cons, beqFid_true hp]
      · rw [if_neg hq]
        have hrest : rest.any (fun q => q.fileOrId == p.fileOrId) = true := by
          rcases List.any_eq_true.mp hany with ⟨x, hx, hxp⟩
          rcases List.mem_cons.mp hx with rfl | hx'
          · exact absurd hxp hq
          · exact List.any_eq_true.mpr ⟨x, hx', hxp⟩
        rw [Bool.not_eq_true, beq_eq_false_iff_ne] at hq
        simp only [List.find?_cons, beqFid_false (hp ▸ hq)]
        exact ih hrest

lemma find?_append_single_self (p : Server.PluginDesc) (ts : List Server.PluginDesc)
    (id : String) (hp : p.fileOrId = id)
    (hnone : ¬ ts.any (fun q => q.fileOrId == p.fileOrId) = true) :
    (ts ++ [p]).find? (fun q => q.fileOrId == id) = some p := by
  induction ts with
  | nil =>
      simp only [List.nil_append, List.find?_cons, beqFid_true hp]
  | cons q rest ih =>
      have hq : ¬ (q.fileOrId == p.fileOrId) = true := fun h =>
        hnone (List.any_eq_true.mpr ⟨q, List.mem_cons_self q rest, h⟩)
      have hrest : ¬ rest.any (fun r => r.fileOrId == p.fileOrId) = true := fun h => by
        rcases List.any_eq_true.mp h with ⟨x, hx, hxp⟩
        exact hnone (List.any_eq_true.mpr ⟨x, List.mem_cons_of_mem q hx, hxp⟩)
      rw [Bool.not_eq_true, beq_eq_false_iff_ne] at hq
      simp only [List.cons_append, List.find?_cons, beqFid_false (hp ▸ hq)]
      exact ih hrest

lemma find?_addType_self (p : Server.PluginDesc) (ts : List Server.PluginDesc)
    (id : String) (hp : p.fileOrId = id) :
    (Server.addType p ts).find? (fun q => q.fileOrId == id) = some p := by
  unfold Server.addType
  by_cases hany : ts.any (fun q => q.fileOrId == p.fileOrId) = true
  · rw [if_pos hany]
    exact find?_replace_self p ts id hp hany
  · rw [if_neg hany]
    exact find?_append_single_self p ts id hp hany

lemma child_getType_ne (probe : Server.ProbeOracle) (idp id fname : String)
    (d : Server.Disk) (hne : idp ≠ id) :
    Server.getTypeForFile id (Server.scanPluginChild probe idp fname d).catalog =
      Server.getTypeForFile id d.catalog := by
  cases hpr : probe idp fname with
  | ok desc =>
      simp only [Server.scanPluginChild, hpr, Server.getTypeForFile]
      exact find?_addType_ne { desc with fileOrId := idp } d.catalog.types id hne
  | bad => simp only [Server.scanPluginChild, hpr, Server.getTypeForFile,
      Server.addToBlacklist]
  | hang => simp only [Server.scanPluginChild, hpr]

lemma child_getType_self_ok (probe : Server.ProbeOracle) (id fname : String)
    (d : Server.Disk) (desc : Server.PluginDesc)
    (hok : probe id fname = Server.ProbeRes.ok desc) :
    Server.getTypeForFile id (Server.scanPluginChild probe id fname d).catalog =
      some { desc with fileOrId := id } := by
  simp only [Server.scanPluginChild, hok, Server.getTypeForFile]
  exact find?_addType_self { desc with fileOrId := id } d.catalog.types id rfl

lemma child_blacklist_mono (probe : Server.ProbeOracle) (idp fname : String)
    (d : Server.Disk) (x : String) (h : x ∈ d.catalog.blacklist) :
    x ∈ (Server.scanPluginChild probe idp fname d).catalog.blacklist := by
  cases hpr : probe idp fname with
  | ok desc => simpa only [Server.scanPluginChild, hpr] using h
  | bad =>
      simp only [Server.scanPluginChild, hpr, Server.addToBlacklist]
      exact Finset.mem_insert_of_mem h
  | hang => simpa only [Server.scanPluginChild, hpr] using h

lemma child_blacklist_self_bad (probe : Server.ProbeOracle) (id fname : String)
    (d : Server.Disk) (hbad : probe id fname = Server.ProbeRes.bad) :
    id ∈ (Server.scanPluginChild probe id fname d).catalog.blacklist := by
  simp only [Server.scanPluginChild, hbad, Server.addToBlacklist]
  exact Finset.mem_insert_self id _

lemma scanLoop_cons (probe : Server.ProbeOracle) (plist0 : Server.KnownPluginList)
    (excl : Finset String) (incl : List String)
    (it : Server.FormatDriver × String) (rest : List (Server.FormatDriver × String))
    (d : Server.Disk) :
    Server.scanLoop probe plist0 excl incl (it :: rest) d =
      Server.scanLoop probe plist0 excl incl rest
        (if Server.scanDecision plist0 excl incl it.1 it.2 then
          Server.scanPluginChild probe it.2 it.1.name d
         else d) := rfl

lemma scanLoop_getType_of_not_probed (probe : Server.ProbeOracle)
    (plist0 : Server.KnownPluginList) (excl : Finset String) (incl : List String)
    (items : List (Server.FormatDriver × String)) (d : Server.Disk) (id : String)
    (h : ∀ it ∈ items, Server.scanDecision plist0 excl incl it.1 it.2 = true → it.2 ≠ id) :
    Server.getTypeForFile id (Server.scanLoop probe plist0 excl incl items d).catalog =
      Server.getTypeForFile id d.catalog := by
  revert h
  induction items generalizing d with
  | nil => intro _; rfl
  | cons it rest ih =>
      intro h
      rw [scanLoop_cons]
      by_cases hdec : Server.scanDecision plist0 excl incl it.1 it.2 = true
      · rw [if_pos hdec,
          ih _ (fun it' hit' hd => h it' (List.mem_cons_of_mem _ hit') hd)]
        exact child_getType_ne probe it.2 id it.1.name d
          (h it (List.mem_cons_self it rest) hdec)
      · rw [if_neg hdec]
        exact ih d (fun it' hit' hd => h it' (List.mem_cons_of_mem _ hit') hd)

lemma scanLoop_blacklist_mono (probe : Server.ProbeOracle)
    (plist0 : Server.KnownPluginList) (excl : Finset String) (incl : List String)
    (items : List (Server.FormatDriver × String)) (d : Server.Disk) (x : String)
    (h : x ∈ d.catalog.blacklist) :
    x ∈ (Server.scanLoop probe plist0 excl incl items d).catalog.blacklist := by
  revert h
  induction items generalizing d with
  | nil => exact fun h => h
  | cons it rest ih =>
      intro h
      rw [scanLoop_cons]
      by_cases hdec : Server.scanDecision plist0 excl incl it.1 it.2 = true
      · rw [if_pos hdec]
        exact ih _ (child_blacklist_mono probe it.2 it.1.name d x h)
      · rw [if_neg hdec]
        exact ih _ h

lemma scanLoop_noop (probe : Server.ProbeOracle) (plist0 : Server.KnownPluginList)
    (excl : Finset String) (incl : List String)
    (items : List (Server.FormatDriver × String)) (d : Server.Disk)
    (h : ∀ it ∈ items, Server.scanDecision plist0 excl incl it.1 it.2 = false) :
    Server.scanLoop probe plist0 excl incl items d = d := by
  revert h
  induction items generalizing d with
  | nil => intro _; rfl
  | cons it rest ih =>
      intro h
      rw [scanLoop_cons, if_neg (by rw [h it (List.mem_cons_self it rest)]; exact Bool.false_ne_true)]
      exact ih d (fun it' hit' => h it' (List.mem_cons_of_mem _ hit'))

lemma scanLoop_post_ok (probe : Server.ProbeOracle) (plist0 : Server.KnownPluginList)
    (excl : Finset String) (incl : List String)
    (items : List (Server.FormatDriver × String)) (d : Server.Disk)
    (fmt : Server.FormatDriver) (id : String) (desc : Server.PluginDesc)
    (hnd : (items.map Prod.snd).Nodup) (hmem : (fmt, id) ∈ items)
    (hdec : Server.scanDecision plist0 excl incl fmt id = true)
    (hok : probe id fmt.name = Server.ProbeRes.ok desc) :
    Server.getTypeForFile id (Server.scanLoop probe plist0 excl incl items d).catalog =
      some { desc with fileOrId := id } := by
  revert hnd hmem
  induction items generalizing d with
  | nil => intro _ hmem; cases hmem
  | cons it rest ih =>
      intro hnd hmem
      rw [scanLoop_cons]
      rcases List.mem_cons.mp hmem with heq | hmem'
      · subst heq
        simp only [List.map_cons] at hnd
        have hid : id ∉ rest.map Prod.snd := (List.nodup_cons.mp hnd).1
        have hre : ∀ it' ∈ rest,
            Server.scanDecision plist0 excl incl it'.1 it'.2 = true → it'.2 ≠ id := by
          intro it' hit' _ hcon
          exact hid (hcon ▸ List.mem_map_of_mem Prod.snd hit')
        rw [if_pos hdec,
          scanLoop_getType_of_not_probed probe plist0 excl incl rest _ id hre]
        exact child_getType_self_ok probe id fmt.name d desc hok
      · simp only [List.map_cons] at hnd
        exact ih _ (List.nodup_cons.mp hnd).2 hmem'

lemma scanLoop_post_bad (probe : Server.ProbeOracle) (plist0 : Server.KnownPluginList)
    (excl : Finset String) (incl : List String)
    (items : List (Server.FormatDriver × String)) (d : Server.Disk)
    (fmt : Server.FormatDriver) (id : String)
    (hmem : (fmt, id) ∈ items)
    (hdec : Server.scanDecision plist0 excl incl fmt id = true)
    (hbad : probe id fmt.name = Server.ProbeRes.bad) :
    id ∈ (Server.scanLoop probe plist0 excl incl items d).catalog.blacklist := by
  revert hmem
  induction items generalizing d with
  | nil => intro hmem; cases hmem
  | cons it rest ih =>
      intro hmem
      rw [scanLoop_cons]
      rcases List.mem_cons.mp hmem with heq | hmem'
      · subst heq
        rw [if_pos hdec]
        exact scanLoop_blacklist_mono probe plist0 excl incl rest _ id
          (child_blacklist_self_bad probe id fmt.name d hbad)
      · exact ih _ hmem'

lemma scanDecision_false_of_desc (plist0 : Server.KnownPluginList)
    (excl : Finset String) (incl : List String) (fmt : Server.FormatDriver)
    (id : String) (p : Server.PluginDesc)
    (h : Server.getTypeForFile id plist0 = some p) (hnr : fmt.needsRescan p = false) :
    Server.scanDecision plist0 excl incl fmt id = false := by
  simp [Server.scanDecision, h, hnr]

lemma scanDecision_false_of_blacklist (plist0 : Server.KnownPluginList)
    (excl : Finset String) (incl : List String) (fmt : Server.FormatDriver)
    (id : String) (h : id ∈ plist0.blacklist) :
    Server.scanDecision plist0 excl incl fmt id = false := by
  simp [Server.scanDecision, h]

lemma scanDecision_false_of_excluded (plist0 : Server.KnownPluginList)
    (excl : Finset String) (incl : List String) (fmt : Server.FormatDriver)
    (id : String)
    (h : Server.shouldExcludeWith excl (fmt.pluginName id) incl = true) :
    Server.scanDecision plist0 excl incl fmt id = false := by
  simp [Server.scanDecision, h]

lemma scanDecision_false_cases (plist0 : Server.KnownPluginList)
    (excl : Finset String) (incl : List String) (fmt : Server.FormatDriver)
    (id : String)
    (hdec : Server.scanDecision plist0 excl incl fmt id = false) :
    (∃ p, Server.getTypeForFile id plist0 = some p ∧ fmt.needsRescan p = false) ∨
    id ∈ plist0.blacklist ∨
    Server.shouldExcludeWith excl (fmt.pluginName id) incl = true := by
  cases h : Server.getTypeForFile id plist0 with
  | none =>
      simp [Server.scanDecision, h] at hdec
      tauto
  | some p =>
      simp [Server.scanDecision, h] at hdec
      by_cases hnr : fmt.needsRescan p = true
      · by_cases hbl : id ∈ plist0.blacklist
        · exact Or.inr (Or.inl hbl)
        · exact Or.inr (Or.inr (hdec hnr hbl))
      · rw [Bool.not_eq_true] at hnr
        exact Or.inl ⟨p, rfl, hnr⟩

lemma shouldExcludeWith_congr (e1 e2 : Finset String) (n : String)
    (incl : List String) (h : n ∈ e1 ↔ n ∈ e2) :
    Server.shouldExcludeWith e1 n incl = Server.shouldExcludeWith e2 n incl := by
  unfold Server.shouldExcludeWith
  rw [decide_eq_decide.mpr h]

lemma mem_itemsOf (fmts : List Server.FormatDriver) (fmt : Server.FormatDriver)
    (id : String) :
    (fmt, id) ∈ Server.itemsOf fmts ↔ fmt ∈ fmts ∧ id ∈ fmt.installed := by
  simp only [Server.itemsOf, List.mem_flatMap, List.mem_map, Prod.mk.injEq]
  constructor
  · rintro ⟨f, hf, i, hi, rfl, rfl⟩
    exact ⟨hf, hi⟩
  · rintro ⟨hf, hi⟩
    exact ⟨fmt, hf, id, hi, rfl, rfl⟩

lemma itemsNodup_eq (items : List (Server.FormatDriver × String))
    (hnd : (items.map Prod.snd).Nodup) {fmt : Server.FormatDriver} {id : String}
    (hmem : (fmt, id) ∈ items) {it : Server.FormatDriver × String}
    (hit : it ∈ items) (h2 : it.2 = id) : it = (fmt, id) :=
  List.inj_on_of_nodup_map hnd hit hmem h2

lemma run2_decision_false (probe : Server.ProbeOracle)
    (fmts : List Server.FormatDriver) (incl : List String)
    (s : Server.ServerState) (d : Server.Disk)
    (hnd : ((Server.itemsOf fmts).map Prod.snd).Nodup)
    (hfresh : ∀ fmt ∈ fmts, ∀ id desc, probe id fmt.name = Server.ProbeRes.ok desc →
        fmt.needsRescan { desc with fileOrId := id } = false)
    (hnohang : ∀ id f, probe id f ≠ Server.ProbeRes.hang)
    (fmt : Server.FormatDriver) (id : String)
    (hmem : (fmt, id) ∈ Server.itemsOf fmts) :
    Server.scanDecision
        (Server.scanLoop probe d.catalog s.pluginexclude incl (Server.itemsOf fmts) d).catalog
        (s.pluginexclude \ Server.neverSeenAfter (Server.itemsOf fmts) s.pluginexclude)
        incl fmt id = false := by
  by_cases hdec : Server.scanDecision d.catalog s.pluginexclude incl fmt id = true
  · cases hok : probe id fmt.name with
    | ok desc =>
        have hty := scanLoop_post_ok probe d.catalog s.pluginexclude incl
          (Server.itemsOf fmts) d fmt id desc hnd hmem hdec hok
        have hfm : fmt ∈ fmts := ((mem_itemsOf fmts fmt id).mp hmem).1
        exact scanDecision_false_of_desc _ _ _ fmt id _ hty (hfresh fmt hfm id desc hok)
    | bad =>
        have hbl := scanLoop_post_bad probe d.catalog s.pluginexclude incl
          (Server.itemsOf fmts) d fmt id hmem hdec hok
        exact scanDecision_false_of_blacklist _ _ _ fmt id hbl
    | hang => exact absurd hok (hnohang id fmt.name)
  · rw [Bool.not_eq_true] at hdec
    rcases scanDecision_false_cases _ _ _ fmt id hdec with ⟨p, hp, hnr⟩ | hbl | hexcl
    · have hpres : Server.getTypeForFile id
          (Server.scanLoop probe d.catalog s.pluginexclude incl (Server.itemsOf fmts) d).catalog =
          Server.getTypeForFile id d.catalog := by
        apply scanLoop_getType_of_not_probed
        intro it hit hdit hcon
        have heq := itemsNodup_eq (Server.itemsOf fmts) hnd hmem hit hcon
        rw [heq] at hdit
        rw [hdec] at hdit
        exact Bool.false_ne_true hdit
      exact scanDecision_false_of_desc _ _ _ fmt id p (hpres.trans hp) hnr
    · exact scanDecision_false_of_blacklist _ _ _ fmt id
        (scanLoop_blacklist_mono probe d.catalog s.pluginexclude incl
          (Server.itemsOf fmts) d id hbl)
    · have hobs : fmt.pluginName id ∉
          Server.neverSeenAfter (Server.itemsOf fmts) s.pluginexclude := by
        rw [mem_neverSeenAfter]
        rintro ⟨-, hall⟩
        exact hall (fmt, id) hmem rfl
      have hiff : (fmt.pluginName id ∈
            s.pluginexclude \ Server.neverSeenAfter (Server.itemsOf fmts) s.pluginexclude) ↔
          fmt.pluginName id ∈ s.pluginexclude := by
        rw [Finset.mem_sdiff]
        exact ⟨fun h => h.1, fun h => ⟨h, hobs⟩⟩
      have hse := shouldExcludeWith_congr _ s.pluginexclude (fmt.pluginName id) incl hiff
      exact scanDecision_false_of_excluded _ _ _ fmt id (hse.trans hexcl)

/-- C8: running `scanForPlugins` twice in succession — with a fixed set
of installed plugins enumerated under distinct identifiers, no child
crash/hang (every probe completes), and freshly probed descriptors not
needing rescanning (no filesystem changes between the runs) — produces
an identical sorted catalog after each run, and the second run leaves
the disk unchanged. -/
theorem C8_scan_idempotent (probe : Server.ProbeOracle)
    (fmts : List Server.FormatDriver) (incl : List String)
    (s : Server.ServerState) (d : Server.Disk)
    (hnd : ((Server.itemsOf fmts).map Prod.snd).Nodup)
    (hfresh : ∀ fmt ∈ fmts, ∀ id desc, probe id fmt.name = Server.ProbeRes.ok desc →
        fmt.needsRescan { desc with fileOrId := id } = false)
    (hnohang : ∀ id f, probe id f ≠ Server.ProbeRes.hang) :
    ((Server.scanForPlugins probe fmts incl
        (Server.scanForPlugins probe fmts incl s d).1
        (Server.scanForPlugins probe fmts incl s d).2.1).1).pluginlist =
      ((Server.scanForPlugins probe fmts incl s d).1).pluginlist ∧
    (Server.scanForPlugins probe fmts incl
        (Server.scanForPlugins probe fmts incl s d).1
        (Server.scanForPlugins probe fmts incl s d).2.1).2.1 =
      (Server.scanForPlugins probe fmts incl s d).2.1 := by
  have hd1 : (Server.scanForPlugins probe fmts incl s d).2.1 =
      Server.scanLoop probe d.catalog s.pluginexclude incl (Server.itemsOf fmts) d := rfl
  have hex : ((Server.scanForPlugins probe fmts incl s d).1).pluginexclude =
      s.pluginexclude \ Server.neverSeenAfter (Server.itemsOf fmts) s.pluginexclude := rfl
  have hdecs : ∀ it ∈ Server.itemsOf fmts,
      Server.scanDecision
        (Server.scanLoop probe d.catalog s.pluginexclude incl (Server.itemsOf fmts) d).catalog
        (s.pluginexclude \ Server.neverSeenAfter (Server.itemsOf fmts) s.pluginexclude)
        incl it.1 it.2 = false := by
    intro it hit
    exact run2_decision_false probe fmts incl s d hnd hfresh hnohang it.1 it.2
      (by rw [Prod.mk.eta]; exact hit)
  have hnoop := scanLoop_noop probe
    (Server.scanLoop probe d.catalog s.pluginexclude incl (Server.itemsOf fmts) d).catalog
    (s.pluginexclude \ Server.neverSeenAfter (Server.itemsOf fmts) s.pluginexclude)
    incl (Server.itemsOf fmts)
    (Server.scanLoop probe d.catalog s.pluginexclude incl (Server.itemsOf fmts) d) hdecs
  have hdd : (Server.scanForPlugins probe fmts incl
      (Server.scanForPlugins probe fmts incl s d).1
      (Server.scanForPlugins probe fmts incl s d).2.1).2.1 =
      (Server.scanForPlugins probe fmts incl s d).2.1 := by
    have hd2 : (Server.scanForPlugins probe fmts incl
        (Server.scanForPlugins probe fmts incl s d).1
        (Server.scanForPlugins probe fmts incl s d).2.1).2.1 =
        Server.scanLoop probe
          ((Server.scanForPlugins probe fmts incl s d).2.1).catalog
          ((Server.scanForPlugins probe fmts incl s d).1).pluginexclude incl
          (Server.itemsOf fmts)
          ((Server.scanForPlugins probe fmts incl s d).2.1) := rfl
    rw [hd2, hex, hd1, hnoop]
  refine ⟨?_, hdd⟩
  have hpl1 : ((Server.scanForPlugins probe fmts incl s d).1).pluginlist =
      { types := ((Server.scanForPlugins probe fmts incl s d).2.1).catalog.types.mergeSort
          Server.pluginLe,
        blacklist := ((Server.scanForPlugins probe fmts incl s d).2.1).catalog.blacklist } := rfl
  have hpl2 : ((Server.scanForPlugins probe fmts incl
      (Server.scanForPlugins probe fmts incl s d).1
      (Server.scanForPlugins probe fmts incl s d).2.1).1).pluginlist =
      { types := ((Server.scanForPlugins probe fmts incl
            (Server.scanForPlugins probe fmts incl s d).1
            (Server.scanForPlugins probe fmts incl s d).2.1).2.1).catalog.types.mergeSort
          Server.pluginLe,
        blacklist := ((Server.scanForPlugins probe fmts incl
            (Server.scanForPlugins probe fmts incl s d).1
            (Server.scanForPlugins probe fmts incl s d).2.1).2.1).catalog.blacklist } := rfl
  rw [hpl1, hpl2, hdd]

theorem C8_witness :
    ((Server.itemsOf [Server.exFmt]).map Prod.snd).Nodup ∧
    (∀ fmt ∈ [Server.exFmt], ∀ id desc,
        Server.exProbe id fmt.name = Server.ProbeRes.ok desc →
        fmt.needsRescan { desc with fileOrId := id } = false) ∧
    (∀ id f, Server.exProbe id f ≠ Server.ProbeRes.hang) ∧
    (((Server.scanForPlugins Server.exProbe [Server.exFmt] []
        (Server.scanForPlugins Server.exProbe [Server.exFmt] [] Server.exState Server.exDisk).1
        (Server.scanForPlugins Server.exProbe [Server.exFmt] [] Server.exState
          Server.exDisk).2.1).1).pluginlist =
      ((Server.scanForPlugins Server.exProbe [Server.exFmt] [] Server.exState
          Server.exDisk).1).pluginlist ∧
     (Server.scanForPlugins Server.exProbe [Server.exFmt] []
        (Server.scanForPlugins Server.exProbe [Server.exFmt] [] Server.exState Server.exDisk).1
        (Server.scanForPlugins Server.exProbe [Server.exFmt] [] Server.exState
          Server.exDisk).2.1).2.1 =
      (Server.scanForPlugins Server.exProbe [Server.exFmt] [] Server.exState
          Server.exDisk).2.1) :=
  ⟨by decide,
   fun fmt hfm id desc hok => by
     rw [List.mem_singleton] at hfm
     subst hfm
     rfl,
   fun id f h => by simp [Server.exProbe] at h,
   C8_scan_idempotent Server.exProbe [Server.exFmt] [] Server.exState Server.exDisk
     (by decide)
     (fun fmt hfm id desc hok => by
       rw [List.mem_singleton] at hfm
       subst hfm
       rfl)
     (fun id f h => by simp [Server.exProbe] at h)⟩
